import Mathlib

/-!
Verification of the tyto BitTorrent tracker core against its specification.

The Rust sources are embedded shallowly:
* `src/bittorrent.rs` — peer compact encoding, announce/scrape query parsing
  (queries are modelled at the level of the decoded key/value pair list
  produced by `form_urlencoded::parse`);
* `src/network/mod.rs` — the announce engine's event dispatch
  (store state is passed explicitly; calls to the global statistics
  object are recorded as a trace of operation tags, in call order);
* `src/storage/reaper.rs` — the peer reaper.

Machine integers are modelled as `Nat`; reductions modulo `2 ^ 32` /
`2 ^ 128` are written explicitly where the Rust code could wrap.
Store components whose source is not part of the three files
(peer store, torrent store, statistics) are modelled from the
specification and marked as such.
-/

namespace Tyto

/-! ## Model of `src/bittorrent.rs` -/

/-- Announce event, from `enum Event` in `bittorrent.rs`. -/
inductive Event where
  | Started
  | Stopped
  | Completed
  | None
deriving DecidableEq, Repr

/-- An IPv4 address as its four octets, mirroring `std::net::Ipv4Addr`. -/
structure Ipv4Addr where
  o0 : Nat
  o1 : Nat
  o2 : Nat
  o3 : Nat
deriving DecidableEq, Repr

/-- The `octets()` view of an IPv4 address, most significant first. -/
def Ipv4Addr.octets (a : Ipv4Addr) : List Nat :=
  [a.o0, a.o1, a.o2, a.o3]

/-- An IPv6 address as its sixteen octets (the `octets()` view),
most significant first, mirroring `std::net::Ipv6Addr`. -/
structure Ipv6Addr where
  octets : List Nat
deriving DecidableEq, Repr

/-- `struct Peerv4` from `bittorrent.rs`. -/
structure Peerv4 where
  peer_id : String
  ip : Ipv4Addr
  port : Nat
deriving DecidableEq, Repr

/-- `struct Peerv6` from `bittorrent.rs`. -/
structure Peerv6 where
  peer_id : String
  ip : Ipv6Addr
  port : Nat
deriving DecidableEq, Repr

/-- Big-endian byte serialization of `v` into `n` bytes: the model of
`put_u32_be` / `put_u16_be` / `to_be_bytes` writing `n` bytes. -/
def toBeBytes : Nat → Nat → List Nat
  | 0, _ => []
  | n + 1, v => v / 2 ^ (8 * n) % 256 :: toBeBytes n v

/-- The octet-accumulation loop shared by `Peerv4::compact` and
`Peerv6::compact`: starting from `ip` and a count `numOctets`
initialised to `len - 1`, each octet is shifted by `8 * numOctets`
bits and added, the count decreasing until it reaches zero; the last
octet is added unshifted.  Additions are in a `w`-bit unsigned
integer, hence the reduction modulo `2 ^ w`. -/
def loopIp (w : Nat) : Nat → Nat → List Nat → Nat
  | _, ip, [] => ip
  | numOctets, ip, x :: xs =>
    if 0 < numOctets then
      loopIp w (numOctets - 1) ((ip + x * 2 ^ (8 * numOctets)) % 2 ^ w) xs
    else
      loopIp w numOctets ((ip + x) % 2 ^ w) xs

/-- `Peerv4::compact`: accumulate the four octets into a `u32`, then
emit that value as four big-endian bytes followed by the port as two
big-endian bytes. -/
def Peerv4.compact (p : Peerv4) : List Nat :=
  let ip := loopIp 32 (p.ip.octets.length - 1) 0 p.ip.octets
  toBeBytes 4 (ip % 2 ^ 32) ++ toBeBytes 2 (p.port % 2 ^ 16)

/-- `Peerv6::compact`: accumulate the sixteen octets into a `u128`,
then emit `to_be_bytes` of that value followed by the two port bytes. -/
def Peerv6.compact (p : Peerv6) : List Nat :=
  let ip := loopIp 128 (p.ip.octets.length - 1) 0 p.ip.octets
  toBeBytes 16 (ip % 2 ^ 128) ++ toBeBytes 2 (p.port % 2 ^ 16)

/-- `string_to_event` from `bittorrent.rs`: both the empty string and
any unrecognized value map to `Event::None`. -/
def string_to_event (s : String) : Event :=
  if s = "started" then Event.Started
  else if s = "stopped" then Event.Stopped
  else if s = "completed" then Event.Completed
  else if s = "" then Event.None
  else Event.None

/-- Model of Rust's `str::parse::<uN>` for an unsigned `w`-bit integer:
an optional leading plus sign, then at least one decimal digit; the
value must fit in `w` bits, otherwise the parse fails (overflow). -/
def parseUInt (w : Nat) (s : String) : Option Nat :=
  let cs :=
    match s.data with
    | '+' :: rest => rest
    | cs => cs
  if cs.isEmpty then none
  else if cs.all Char.isDigit then
    let v := cs.foldl (fun a c => a * 10 + (c.toNat - 48)) 0
    if v < 2 ^ w then some v else none
  else none

/-- `struct AnnounceRequest` from `bittorrent.rs`.  Note the numeric
quantities are `u32` in the source and the peer-id field is named
`peer`. -/
structure AnnounceRequest where
  info_hash : String
  peer : String
  port : Nat
  uploaded : Nat
  downloaded : Nat
  left : Nat
  compact : Bool
  no_peer_id : Bool
  event : Event
deriving DecidableEq, Repr

/-- The initial field values of `AnnounceRequest::new` before the
key/value loop runs. -/
def initAnnounceRequest : AnnounceRequest :=
  { info_hash := ""
    peer := ""
    port := 0
    uploaded := 0
    downloaded := 0
    left := 0
    compact := false
    no_peer_id := false
    event := Event.None }

/-- The key/value loop of `AnnounceRequest::new`: recognized keys
update the record (numeric fields through `parse`, failing with the
source's error strings); unrecognized keys are ignored. -/
def announceLoop : List (String × String) → AnnounceRequest → Except String AnnounceRequest
  | [], acc => Except.ok acc
  | (k, v) :: rest, acc =>
    match k with
    | "info_hash" => announceLoop rest { acc with info_hash := v }
    | "peer" => announceLoop rest { acc with peer := v }
    | "port" =>
      match parseUInt 16 v with
      | some n => announceLoop rest { acc with port := n }
      | none => Except.error "Unable to parse port"
    | "uploaded" =>
      match parseUInt 32 v with
      | some n => announceLoop rest { acc with uploaded := n }
      | none => Except.error "Unable to parse uploaded quantity"
    | "downloaded" =>
      match parseUInt 32 v with
      | some n => announceLoop rest { acc with downloaded := n }
      | none => Except.error "Unable to parse downloaded quantity"
    | "left" =>
      match parseUInt 32 v with
      | some n => announceLoop rest { acc with left := n }
      | none => Except.error "Unable to parse remaining quantity"
    | "compact" =>
      match parseUInt 32 v with
      | some n => announceLoop rest { acc with compact := n != 0 }
      | none => Except.error "Unable to parse compact value as boolean"
    | "no_peer_id" =>
      match parseUInt 32 v with
      | some n => announceLoop rest { acc with no_peer_id := n != 0 }
      | none => Except.error "Unable to parse no_peer_id as boolean"
    | "event" => announceLoop rest { acc with event := string_to_event v }
    | _ => announceLoop rest acc

/-- `AnnounceRequest::new` from `bittorrent.rs`, over the decoded
key/value pairs of the query string. -/
def AnnounceRequest.new (pairs : List (String × String)) : Except String AnnounceRequest :=
  announceLoop pairs initAnnounceRequest

/-- The key/value loop of `ScrapeRequest::new`: each `info_hash` value
is pushed in query order; any other key aborts with the source's
error string. -/
def scrapeLoop (acc : List String) : List (String × String) → Except String (List String)
  | [] => Except.ok acc
  | (k, v) :: rest =>
    if k = "info_hash" then scrapeLoop (acc ++ [v]) rest
    else Except.error "Malformed scrape request"

/-- `ScrapeRequest::new` from `bittorrent.rs`, over the decoded
key/value pairs of the query string; returns the `info_hashes` list. -/
def ScrapeRequest.new (pairs : List (String × String)) : Except String (List String) :=
  scrapeLoop [] pairs

/-! ## The announce engine of `src/network/mod.rs`

The engine mutates three shared stores.  Their sources are outside the
three embedded files, so the store operations are modelled from the
specification (§4.3, §4.4, §3); the dispatch logic itself is the code
of `parse_announce`.  Calls to the global statistics object are
recorded as a trace of operation tags, in call order. -/

/-- Modelled from the spec: a swarm for one info-hash — two sets of
peers keyed by `peer_id` (§3).  Membership is all that the embedded
claims need, so peers are represented by their `peer_id`. -/
structure Swarm where
  seeders : List String
  leechers : List String
deriving DecidableEq, Repr

/-- Modelled from the spec: a `TorrentRecord` (§3) — the aggregate
`complete` / `incomplete` / `downloaded` counters for one info-hash. -/
structure TorrentRecord where
  complete : Nat
  incomplete : Nat
  downloaded : Nat
deriving DecidableEq, Repr

/-- Modelled from the spec: the `PeerStore`, mapping info-hashes to
swarms (§3); a total map whose default is the empty swarm stands in
for lazy creation. -/
def PeerStore : Type := String → Swarm

/-- Modelled from the spec: the `TorrentStore`, mapping info-hashes to
records (§3), with the same total-map reading of lazy creation. -/
def TorrentStore : Type := String → TorrentRecord

/-- A statistics operation tag; the names are the methods of the
global statistics object invoked by `parse_announce`. -/
inductive StatsOp where
  | add_leech
  | sub_seed
  | sub_leech
  | promote_leech
  | succ_announce
  | fail_announce
deriving DecidableEq, Repr

/-- The engine state: peer store, torrent store, and the trace of
statistics calls. -/
structure State where
  peers : PeerStore
  torrents : TorrentStore
  statsLog : List StatsOp

/-- Modelled from the spec: `put_leecher(ih, peer)` of the missing
peer-store source — insert into `leechers`; if present in `seeders`,
remove there first (§4.3). -/
def PeerStore.put_leecher (ps : PeerStore) (ih pid : String) : PeerStore :=
  fun ih' =>
    if ih' = ih then
      { seeders := (ps ih).seeders.filter (fun q => q != pid)
        leechers := pid :: (ps ih).leechers.filter (fun q => q != pid) }
    else ps ih'

/-- Modelled from the spec: `remove_seeder(ih, peer_id) → bool` of the
missing peer-store source — returns true if a peer was removed
(§4.3); when the peer is absent the store is unchanged. -/
def PeerStore.remove_seeder (ps : PeerStore) (ih pid : String) : Bool × PeerStore :=
  if (ps ih).seeders.contains pid then
    (true, fun ih' =>
      if ih' = ih then
        { ps ih with seeders := (ps ih).seeders.filter (fun q => q != pid) }
      else ps ih')
  else (false, ps)

/-- Modelled from the spec: `remove_leecher(ih, peer_id) → bool` of the
missing peer-store source (§4.3). -/
def PeerStore.remove_leecher (ps : PeerStore) (ih pid : String) : Bool × PeerStore :=
  if (ps ih).leechers.contains pid then
    (true, fun ih' =>
      if ih' = ih then
        { ps ih with leechers := (ps ih).leechers.filter (fun q => q != pid) }
      else ps ih')
  else (false, ps)

/-- Modelled from the spec: `new_leech(ih)` of the missing
torrent-store source — ensure the record exists and increment
`incomplete` (§4.4). -/
def TorrentStore.new_leech (ts : TorrentStore) (ih : String) : TorrentStore :=
  fun ih' =>
    if ih' = ih then { ts ih with incomplete := (ts ih).incomplete + 1 }
    else ts ih'

/-- Modelled from the spec: `drop_seed(ih)` of the missing
torrent-store source — decrement `complete`, saturating (§4.4). -/
def TorrentStore.drop_seed (ts : TorrentStore) (ih : String) : TorrentStore :=
  fun ih' =>
    if ih' = ih then { ts ih with complete := (ts ih).complete - 1 }
    else ts ih'

/-- Modelled from the spec: `drop_leech(ih)` of the missing
torrent-store source — decrement `incomplete`, saturating (§4.4). -/
def TorrentStore.drop_leech (ts : TorrentStore) (ih : String) : TorrentStore :=
  fun ih' =>
    if ih' = ih then { ts ih with incomplete := (ts ih).incomplete - 1 }
    else ts ih'

/-- The `Event::Started` arm of `parse_announce` in `network/mod.rs`:
`put_leecher`, `torrent_store.new_leech`, then `stats.add_leech` and
`stats.succ_announce`.  (The response construction reads but does not
change the stores.) -/
def parse_announce_started (st : State) (ih pid : String) : State :=
  { peers := st.peers.put_leecher ih pid
    torrents := st.torrents.new_leech ih
    statsLog := st.statsLog ++ [StatsOp.add_leech, StatsOp.succ_announce] }

/-- The `Event::Stopped` arm of `parse_announce` in `network/mod.rs`:
if `remove_seeder` reports a removal, `stats.sub_seed`; otherwise
`remove_leecher` and `stats.sub_leech`; then `stats.succ_announce`.
The torrent store is not touched by this arm. -/
def parse_announce_stopped (st : State) (ih pid : String) : State :=
  let r := st.peers.remove_seeder ih pid
  if r.1 then
    { st with
      peers := r.2
      statsLog := st.statsLog ++ [StatsOp.sub_seed, StatsOp.succ_announce] }
  else
    { st with
      peers := (r.2.remove_leecher ih pid).2
      statsLog := st.statsLog ++ [StatsOp.sub_leech, StatsOp.succ_announce] }

/-! ## Model of `src/storage/reaper.rs` -/

/-- The data carried by either peer variant that the reaper inspects:
`last_announced` is a monotonic instant, modelled as a `Nat` number of
time units since process start. -/
structure PeerData where
  peer_id : String
  last_announced : Nat
deriving DecidableEq, Repr

/-- The tagged `Peer` variant (`Peer::V4` / `Peer::V6`) matched on by
`reap_peers`. -/
inductive Peer where
  | V4 : PeerData → Peer
  | V6 : PeerData → Peer
deriving DecidableEq, Repr

/-- The `last_announced` field of either variant. -/
def Peer.last_announced : Peer → Nat
  | Peer.V4 p => p.last_announced
  | Peer.V6 p => p.last_announced

/-- A reaper-level swarm: the two sets hold full peers. -/
structure SwarmR where
  seeders : List Peer
  leechers : List Peer
deriving DecidableEq, Repr

/-- The shared `storage::Stores` as the reaper sees it: the peer-store
records (an association of info-hash to swarm) and the torrent store. -/
structure Stores where
  peerRecords : List (String × SwarmR)
  torrents : TorrentStore

/-- The retention predicate of `reap_peers`: a peer stays when
`last_announced.elapsed() < peer_timeout`, matching on the variant
exactly as the source does.  `elapsed()` at the current instant `now`
is `now - last_announced` (an `Instant` never lies in the future, and
`Nat` subtraction is likewise non-negative). -/
def keepPeer (now timeout : Nat) : Peer → Bool
  | Peer.V4 p => decide (now - p.last_announced < timeout)
  | Peer.V6 p => decide (now - p.last_announced < timeout)

/-- One swarm's mutation inside the `reap_peers` loop: `retain` on
both sets. -/
def reapSwarm (now timeout : Nat) (sw : SwarmR) : SwarmR :=
  { seeders := sw.seeders.filter (keepPeer now timeout)
    leechers := sw.leechers.filter (keepPeer now timeout) }

/-- `Reaper::reap_peers` on the stores: every snapshotted info-hash
has its swarm retained in place; nothing else in the stores is
written. -/
def reap_peers (now timeout : Nat) (st : Stores) : Stores :=
  { st with
    peerRecords := st.peerRecords.map (fun e => (e.1, reapSwarm now timeout e.2)) }

/-- The `(seeds_reaped, leeches_reaped)` totals accumulated by
`reap_peers` for its log line. -/
def reapCounts (now timeout : Nat) (st : Stores) : Nat × Nat :=
  (st.peerRecords.foldl
      (fun acc e => acc + (e.2.seeders.length - (reapSwarm now timeout e.2).seeders.length)) 0,
    st.peerRecords.foldl
      (fun acc e => acc + (e.2.leechers.length - (reapSwarm now timeout e.2).leechers.length)) 0)

/-! ## The validating announce parser called by `parse_announce`

`network/mod.rs` calls a two-argument `AnnounceRequest::new(query,
remote_ip)` whose source is not among the embedded files (the
`bittorrent.rs` present is an earlier revision with a different
signature); its repository test pins `/announce?bad_stuff=123` to the
body `d14:failure_reason26:Malformed announce requeste`.  The parser
is therefore modelled from the specification (§4.1, §7, §8 scenario 1). -/

namespace Network

/-- The first value bound to key `k` among the decoded query pairs. -/
def findValue (pairs : List (String × String)) (k : String) : Option String :=
  (pairs.find? (fun kv => kv.1 == k)).map (fun kv => kv.2)

/-- Modelled from the spec: the validated announce record produced by
the missing two-argument `AnnounceRequest::new` (§4.1). -/
structure ParsedAnnounce where
  info_hash : String
  peer_id : String
  port : Nat
  uploaded : Nat
  downloaded : Nat
  left : Nat
  event : Event
  numwant : Nat
deriving DecidableEq, Repr

/-- Modelled from the spec: the event field of the validating parser —
`started` / `stopped` / `completed` / empty are accepted, anything
else is the `UnknownEvent` error (§4.1, §7). -/
def eventOfString (s : String) : Except String Event :=
  match s with
  | "started" => Except.ok Event.Started
  | "stopped" => Except.ok Event.Stopped
  | "completed" => Except.ok Event.Completed
  | "" => Except.ok Event.None
  | _ => Except.error "Unknown event"

/-- Modelled from the spec: the missing two-argument
`AnnounceRequest::new` used by `parse_announce` in `network/mod.rs`.
Required keys are `info_hash`, `peer_id`, `port`, `uploaded`,
`downloaded`, `left` (§4.1); a query missing any of them is the
`MalformedQuery` failure, whose reason the repository test pins to
"Malformed announce request" (§8 scenario 1).  Field validation
follows §4.1: 20-byte `info_hash` and `peer_id`, numeric fields via
`parse`, `port == 0` rejected, unknown `event` rejected, `numwant`
defaulting to 50 and capped at 200. -/
def announceRequestNew (pairs : List (String × String)) : Except String ParsedAnnounce :=
  match findValue pairs "info_hash", findValue pairs "peer_id", findValue pairs "port",
      findValue pairs "uploaded", findValue pairs "downloaded", findValue pairs "left" with
  | some ih, some pid, some sp, some su, some sd, some sl =>
    if ih.length ≠ 20 then Except.error "info_hash must be 20 bytes"
    else if pid.length ≠ 20 then Except.error "peer_id must be 20 bytes"
    else
      match parseUInt 16 sp, parseUInt 64 su, parseUInt 64 sd, parseUInt 64 sl with
      | some p, some u, some d, some l =>
        if p = 0 then Except.error "Unable to parse port"
        else
          match eventOfString ((findValue pairs "event").getD "") with
          | Except.error e => Except.error e
          | Except.ok ev =>
            match (findValue pairs "numwant").map (parseUInt 32) with
            | some none => Except.error "Unable to parse numwant"
            | some (some n) =>
              Except.ok
                { info_hash := ih, peer_id := pid, port := p, uploaded := u,
                  downloaded := d, left := l, event := ev, numwant := min n 200 }
            | none =>
              Except.ok
                { info_hash := ih, peer_id := pid, port := p, uploaded := u,
                  downloaded := d, left := l, event := ev, numwant := 50 }
      | none, _, _, _ => Except.error "Unable to parse port"
      | _, none, _, _ => Except.error "Unable to parse uploaded"
      | _, _, none, _ => Except.error "Unable to parse downloaded"
      | _, _, _, none => Except.error "Unable to parse left"
  | _, _, _, _, _, _ => Except.error "Malformed announce request"

/-- A bencoded byte string: decimal length, colon, bytes. -/
def bencodeStr (s : String) : String :=
  Nat.repr s.length ++ ":" ++ s

/-- Modelled from the spec: the bencoding of a failure
`AnnounceResponse` by the missing `encode_announce_response` — when
`failure_reason` is non-empty, the dictionary holds only that key
(§6.2). -/
def encodeAnnounceFailure (reason : String) : String :=
  "d" ++ bencodeStr "failure_reason" ++ bencodeStr reason ++ "e"

/-- The failure path of `parse_announce` in `network/mod.rs`: a query
the parser rejects short-circuits to the bencoded failure response
(and `stats.fail_announce`).  The success path builds its body from
store state and is out of this model's scope, marked `none` here. -/
def announceHandlerBody (pairs : List (String × String)) : Option String :=
  match announceRequestNew pairs with
  | Except.error reason => some (encodeAnnounceFailure reason)
  | Except.ok _ => none

end Network

/-! ## Helper lemmas for the compact encodings -/

/-- The big-endian value of a list of octets, most significant first. -/
def beVal : List Nat → Nat
  | [] => 0
  | x :: xs => x * 2 ^ (8 * xs.length) + beVal xs

theorem beVal_lt (os : List Nat) (h : ∀ x ∈ os, x < 256) :
    beVal os < 2 ^ (8 * os.length) := by
  induction os with
  | nil => simp [beVal]
  | cons x xs ih =>
    have hx : x < 256 := h x (List.mem_cons_self x xs)
    have ihs := ih (fun y hy => h y (List.mem_cons_of_mem x hy))
    have e : 2 ^ (8 * (xs.length + 1)) = 2 ^ (8 * xs.length) * 256 := by
      rw [Nat.mul_succ, pow_add]; norm_num
    show x * 2 ^ (8 * xs.length) + beVal xs < 2 ^ (8 * (x :: xs).length)
    simp only [List.length_cons, e]
    calc x * 2 ^ (8 * xs.length) + beVal xs
        < x * 2 ^ (8 * xs.length) + 2 ^ (8 * xs.length) := Nat.add_lt_add_left ihs _
      _ = (x + 1) * 2 ^ (8 * xs.length) := by ring
      _ ≤ 256 * 2 ^ (8 * xs.length) := Nat.mul_le_mul_right _ hx
      _ = 2 ^ (8 * xs.length) * 256 := by ring

theorem loopIp_eq (w : Nat) (os : List Nat) :
    ∀ acc : Nat, acc + beVal os < 2 ^ w →
      loopIp w (os.length - 1) acc os = acc + beVal os := by
  induction os with
  | nil => intro acc h; simp [loopIp, beVal]
  | cons x xs ih =>
    intro acc h
    match xs, ih with
    | [], _ =>
      simp only [beVal, List.length_nil, Nat.mul_zero, pow_zero, Nat.mul_one,
        Nat.add_zero] at h ⊢
      show loopIp w 0 acc [x] = acc + x
      simp only [loopIp, Nat.lt_irrefl, if_false]
      exact Nat.mod_eq_of_lt h
    | y :: ys, ih =>
      have hlen : (x :: y :: ys).length - 1 = (y :: ys).length := by simp
      have hpos : 0 < (y :: ys).length := by simp
      have hle : acc + x * 2 ^ (8 * (y :: ys).length) ≤ acc + beVal (x :: y :: ys) := by
        simp only [beVal, List.length_cons]; omega
      have hmod : (acc + x * 2 ^ (8 * (y :: ys).length)) % 2 ^ w
          = acc + x * 2 ^ (8 * (y :: ys).length) :=
        Nat.mod_eq_of_lt (lt_of_le_of_lt hle h)
      rw [hlen]
      show loopIp w (y :: ys).length acc (x :: y :: ys) = acc + beVal (x :: y :: ys)
      rw [loopIp, if_pos hpos, hmod]
      have := ih (acc + x * 2 ^ (8 * (y :: ys).length)) (by
        have hb : beVal (x :: y :: ys)
            = x * 2 ^ (8 * (y :: ys).length) + beVal (y :: ys) := rfl
        omega)
      simp only [List.length_cons] at this ⊢
      rw [this]
      have hb : beVal (x :: y :: ys)
          = x * 2 ^ (8 * (y :: ys).length) + beVal (y :: ys) := rfl
      simp only [List.length_cons] at hb
      omega

theorem toBeBytes_add_mul (n : Nat) :
    ∀ c r : Nat, toBeBytes n (c * 2 ^ (8 * n) + r) = toBeBytes n r := by
  induction n with
  | zero => intro c r; simp [toBeBytes]
  | succ m ih =>
    intro c r
    have e : c * 2 ^ (8 * (m + 1)) = 2 ^ (8 * m) * (c * 256) := by
      rw [Nat.mul_succ, pow_add]; ring
    have hpos : 0 < 2 ^ (8 * m) := Nat.pos_pow_of_pos _ (by norm_num)
    show (c * 2 ^ (8 * (m + 1)) + r) / 2 ^ (8 * m) % 256
          :: toBeBytes m (c * 2 ^ (8 * (m + 1)) + r)
        = r / 2 ^ (8 * m) % 256 :: toBeBytes m r
    rw [e, Nat.mul_add_div hpos]
    have hd : (c * 256 + r / 2 ^ (8 * m)) % 256 = r / 2 ^ (8 * m) % 256 := by
      omega
    rw [hd]
    have ht : 2 ^ (8 * m) * (c * 256) + r = (c * 256) * 2 ^ (8 * m) + r := by ring
    rw [ht, ih (c * 256) r]

theorem toBeBytes_beVal (os : List Nat) (h : ∀ x ∈ os, x < 256) :
    toBeBytes os.length (beVal os) = os := by
  induction os with
  | nil => simp [toBeBytes, beVal]
  | cons x xs ih =>
    have hx : x < 256 := h x (List.mem_cons_self x xs)
    have ihs := ih (fun y hy => h y (List.mem_cons_of_mem x hy))
    have hbv : beVal xs < 2 ^ (8 * xs.length) := beVal_lt xs
      (fun y hy => h y (List.mem_cons_of_mem x hy))
    have hpos : 0 < 2 ^ (8 * xs.length) := Nat.pos_pow_of_pos _ (by norm_num)
    show (beVal (x :: xs)) / 2 ^ (8 * xs.length) % 256
          :: toBeBytes xs.length (beVal (x :: xs)) = x :: xs
    have hb : beVal (x :: xs) = x * 2 ^ (8 * xs.length) + beVal xs := rfl
    have hhead : beVal (x :: xs) / 2 ^ (8 * xs.length) % 256 = x := by
      rw [hb]
      have e : x * 2 ^ (8 * xs.length) + beVal xs
          = 2 ^ (8 * xs.length) * x + beVal xs := by ring
      rw [e, Nat.mul_add_div hpos, Nat.div_eq_of_lt hbv]
      omega
    have htail : toBeBytes xs.length (beVal (x :: xs)) = xs := by
      rw [hb, toBeBytes_add_mul xs.length x (beVal xs), ihs]
    rw [hhead, htail]

theorem compact_general (w : Nat) (os : List Nat) (port : Nat)
    (hw : w = 8 * os.length) (hoct : ∀ x ∈ os, x < 256) (hport : port < 2 ^ 16) :
    toBeBytes os.length (loopIp w (os.length - 1) 0 os % 2 ^ w)
        ++ toBeBytes 2 (port % 2 ^ 16)
      = os ++ [port / 256, port % 256] := by
  have hbv : beVal os < 2 ^ w := by rw [hw]; exact beVal_lt os hoct
  have hloop : loopIp w (os.length - 1) 0 os = beVal os := by
    have := loopIp_eq w os 0 (by omega)
    omega
  rw [hloop, Nat.mod_eq_of_lt hbv, toBeBytes_beVal os hoct,
    Nat.mod_eq_of_lt (show port < 2 ^ 16 from hport)]
  have hpb : toBeBytes 2 port = [port / 2 ^ 8 % 256, port / 2 ^ 0 % 256] := rfl
  rw [hpb]
  have h1 : port / 2 ^ 8 % 256 = port / 256 := by omega
  have h2 : port / 2 ^ 0 % 256 = port % 256 := by omega
  rw [h1, h2]

/-! ## Claim theorems -/

/-- Claim C4: an IPv4 peer's compact encoding is exactly 6 bytes — the
four IP octets in network order then the two port bytes in network
order — and an IPv6 peer's compact encoding is exactly 18 bytes — the
sixteen IP octets in network order then the two port bytes. -/
theorem compact_encoding (p4 : Peerv4) (p6 : Peerv6)
    (h0 : p4.ip.o0 < 256) (h1 : p4.ip.o1 < 256) (h2 : p4.ip.o2 < 256) (h3 : p4.ip.o3 < 256)
    (hp4 : p4.port < 2 ^ 16)
    (h6len : p6.ip.octets.length = 16) (h6oct : ∀ x ∈ p6.ip.octets, x < 256)
    (hp6 : p6.port < 2 ^ 16) :
    p4.compact = p4.ip.octets ++ [p4.port / 256, p4.port % 256] ∧
    p4.compact.length = 6 ∧
    p6.compact = p6.ip.octets ++ [p6.port / 256, p6.port % 256] ∧
    p6.compact.length = 18 := by
  have hoct4 : ∀ x ∈ p4.ip.octets, x < 256 := by
    intro x hx
    simp only [Ipv4Addr.octets, List.mem_cons, List.not_mem_nil, or_false] at hx
    rcases hx with h | h | h | h <;> subst h <;> assumption
  have hlen4 : p4.ip.octets.length = 4 := rfl
  have e4 : p4.compact = p4.ip.octets ++ [p4.port / 256, p4.port % 256] := by
    show toBeBytes 4 (loopIp 32 (p4.ip.octets.length - 1) 0 p4.ip.octets % 2 ^ 32)
        ++ toBeBytes 2 (p4.port % 2 ^ 16) = _
    have := compact_general 32 p4.ip.octets p4.port (by rw [hlen4]) hoct4 hp4
    rw [hlen4] at this
    exact this
  have e6 : p6.compact = p6.ip.octets ++ [p6.port / 256, p6.port % 256] := by
    show toBeBytes 16 (loopIp 128 (p6.ip.octets.length - 1) 0 p6.ip.octets % 2 ^ 128)
        ++ toBeBytes 2 (p6.port % 2 ^ 16) = _
    have := compact_general 128 p6.ip.octets p6.port (by rw [h6len]) h6oct hp6
    rw [h6len] at this ⊢
    exact this
  refine ⟨e4, ?_, e6, ?_⟩
  · rw [e4]; simp [hlen4]
  · rw [e6]; simp [h6len]

/-- The IPv4 example peer of the repository test
`peerv4_compact_transform`: 127.0.0.1 port 6681. -/
def peer4Example : Peerv4 :=
  { peer_id := "ABCDEFGHIJKLMNOPQRST", ip := { o0 := 127, o1 := 0, o2 := 0, o3 := 1 }, port := 6681 }

/-- The IPv6 example peer of the repository test
`peerv6_compact_transform`: 2001:0db8:85a3::8a2e:0370:7334 port 6681. -/
def peer6Example : Peerv6 :=
  { peer_id := "ABCDEFGHIJKLMNOPQRST"
    ip := { octets := [32, 1, 13, 184, 133, 163, 0, 0, 0, 0, 138, 46, 3, 112, 115, 52] }
    port := 6681 }

/-- Witness for claim C4 at the repository's own test vectors. -/
theorem compact_encoding_witness :
    peer4Example.compact
        = peer4Example.ip.octets ++ [peer4Example.port / 256, peer4Example.port % 256] ∧
    peer4Example.compact.length = 6 ∧
    peer6Example.compact
        = peer6Example.ip.octets ++ [peer6Example.port / 256, peer6Example.port % 256] ∧
    peer6Example.compact.length = 18 :=
  compact_encoding peer4Example peer6Example (by decide) (by decide) (by decide) (by decide)
    (by decide) (by decide) (by decide) (by decide)

/-! ## Helper lemmas for swarm membership -/

theorem filter_ne_of_not_contains (l : List String) (pid : String)
    (h : l.contains pid = false) : l.filter (fun q => q != pid) = l := by
  apply List.filter_eq_self.mpr
  intro a ha
  have hne : a ≠ pid := by
    intro e
    subst e
    have hc : l.contains a = true := by
      simpa [List.contains, List.elem_iff] using ha
    rw [hc] at h
    cases h
  simpa using hne

theorem not_contains_filter_ne (l : List String) (pid : String) :
    (l.filter (fun q => q != pid)).contains pid = false := by
  by_contra hc
  rw [Bool.not_eq_false] at hc
  simp [List.contains, List.elem_iff] at hc

/-- The `Stopped` arm of `parse_announce` never writes the torrent
store. -/
theorem stopped_keeps_torrents (st : State) (ih pid : String) :
    (parse_announce_stopped st ih pid).torrents = st.torrents := by
  unfold parse_announce_stopped
  by_cases h : (st.peers.remove_seeder ih pid).1 <;> simp [h]

/-- Claim C1 (amended): on an `event=stopped` announce the engine
removes the peer from exactly one swarm set — `remove_seeder` and
`stats.sub_seed` when the peer is among the seeders, otherwise
`remove_leecher` and `stats.sub_leech` — then `stats.succ_announce`;
the torrent store is not adjusted (no `drop_seed` / `drop_leech`
call occurs in this arm). -/
theorem stopped_announce_effect (st : State) (ih pid : String) :
    (parse_announce_stopped st ih pid).torrents = st.torrents ∧
    (if (st.peers ih).seeders.contains pid then
        (parse_announce_stopped st ih pid).peers
            = (fun ih' => if ih' = ih then
                { seeders := (st.peers ih).seeders.filter (fun q => q != pid)
                  leechers := (st.peers ih).leechers }
              else st.peers ih') ∧
        (parse_announce_stopped st ih pid).statsLog
            = st.statsLog ++ [StatsOp.sub_seed, StatsOp.succ_announce]
      else
        (parse_announce_stopped st ih pid).peers
            = (fun ih' => if ih' = ih then
                { seeders := (st.peers ih).seeders
                  leechers := (st.peers ih).leechers.filter (fun q => q != pid) }
              else st.peers ih') ∧
        (parse_announce_stopped st ih pid).statsLog
            = st.statsLog ++ [StatsOp.sub_leech, StatsOp.succ_announce]) := by
  refine ⟨stopped_keeps_torrents st ih pid, ?_⟩
  by_cases hs : (st.peers ih).seeders.contains pid
  · rw [if_pos hs]
    constructor
    · show (parse_announce_stopped st ih pid).peers = _
      unfold parse_announce_stopped PeerStore.remove_seeder
      simp only [hs, if_true]
    · show (parse_announce_stopped st ih pid).statsLog = _
      unfold parse_announce_stopped PeerStore.remove_seeder
      simp only [hs, if_true]
  · rw [if_neg hs]
    rw [Bool.not_eq_true] at hs
    by_cases hl : (st.peers ih).leechers.contains pid
    · constructor
      · show (parse_announce_stopped st ih pid).peers = _
        unfold parse_announce_stopped PeerStore.remove_seeder PeerStore.remove_leecher
        simp only [hs, hl, Bool.false_eq_true, if_false, if_true]
      · show (parse_announce_stopped st ih pid).statsLog = _
        unfold parse_announce_stopped PeerStore.remove_seeder
        simp only [hs, Bool.false_eq_true, if_false]
    · rw [Bool.not_eq_true] at hl
      constructor
      · show (parse_announce_stopped st ih pid).peers = _
        unfold parse_announce_stopped PeerStore.remove_seeder PeerStore.remove_leecher
        simp only [hs, hl, Bool.false_eq_true, if_false]
        funext ih'
        by_cases h : ih' = ih
        · subst h
          rw [if_pos rfl, filter_ne_of_not_contains _ _ hl]
        · rw [if_neg h]
      · show (parse_announce_stopped st ih pid).statsLog = _
        unfold parse_announce_stopped PeerStore.remove_seeder
        simp only [hs, Bool.false_eq_true, if_false]

/-- Concrete state for the claim C1 counterexample: one seeder
`PEER1`, torrent record `complete = 1`. -/
def stC1 : State :=
  { peers := fun _ => { seeders := ["PEER1"], leechers := [] }
    torrents := fun _ => { complete := 1, incomplete := 0, downloaded := 0 }
    statsLog := [] }

/-- Counterexample to claim C1 as stated: on `stopped` for a seeder
the claim requires `torrent.drop_seed` (which per §4.4 would leave
`complete = 0` here), but the code leaves the torrent store untouched
(`complete` stays 1). -/
theorem stopped_announce_no_drop_seed :
    ((parse_announce_stopped stC1 "IH" "PEER1").torrents "IH").complete = 1 ∧
    ((stC1.torrents.drop_seed "IH") "IH").complete = 0 := by
  constructor
  · rfl
  · simp [stC1, TorrentStore.drop_seed]

/-- Claim C2 (amended): `started` then `stopped` for the same
`(info-hash, peer_id)` leaves `complete` and `downloaded` at their
prior values, but `incomplete` remains incremented by 1: `started`
performs `torrent_store.new_leech` and the `stopped` arm performs no
compensating torrent-store decrement. -/
theorem started_then_stopped_counters (st : State) (ih pid : String) :
    ((parse_announce_stopped (parse_announce_started st ih pid) ih pid).torrents ih).complete
        = (st.torrents ih).complete ∧
    ((parse_announce_stopped (parse_announce_started st ih pid) ih pid).torrents ih).downloaded
        = (st.torrents ih).downloaded ∧
    ((parse_announce_stopped (parse_announce_started st ih pid) ih pid).torrents ih).incomplete
        = (st.torrents ih).incomplete + 1 := by
  rw [stopped_keeps_torrents (parse_announce_started st ih pid) ih pid]
  show ((st.torrents.new_leech ih) ih).complete = _ ∧
      ((st.torrents.new_leech ih) ih).downloaded = _ ∧
      ((st.torrents.new_leech ih) ih).incomplete = _
  simp [TorrentStore.new_leech]

/-- Empty initial state for the claim C2 counterexample. -/
def stC2 : State :=
  { peers := fun _ => { seeders := [], leechers := [] }
    torrents := fun _ => { complete := 0, incomplete := 0, downloaded := 0 }
    statsLog := [] }

/-- Counterexample to claim C2 as stated: from an all-zero torrent
record, `started` then `stopped` for the same peer ends with
`incomplete = 1`, not the prior 0 — the counters are not restored. -/
theorem started_then_stopped_not_restored :
    (stC2.torrents "IH").incomplete = 0 ∧
    ((parse_announce_stopped (parse_announce_started stC2 "IH" "PEER1") "IH" "PEER1").torrents
        "IH").incomplete = 1 := by
  constructor
  · rfl
  · rfl

/-- Claim C3 (amended): a reaper tick maps every snapshotted swarm to
its retained version — a peer survives exactly when
`now - last_announced < peer_timeout` — and performs no torrent-store
adjustment: the counters are left exactly as they were (the removal
totals are only computed for the log line). -/
theorem reaper_retention (now timeout : Nat) (st : Stores) :
    (reap_peers now timeout st).torrents = st.torrents ∧
    (reap_peers now timeout st).peerRecords
        = st.peerRecords.map (fun e => (e.1, reapSwarm now timeout e.2)) ∧
    ∀ sw : SwarmR, ∀ p : Peer,
      (p ∈ (reapSwarm now timeout sw).seeders
          ↔ p ∈ sw.seeders ∧ now - p.last_announced < timeout) ∧
      (p ∈ (reapSwarm now timeout sw).leechers
          ↔ p ∈ sw.leechers ∧ now - p.last_announced < timeout) := by
  refine ⟨rfl, rfl, ?_⟩
  intro sw p
  have hk : keepPeer now timeout p = true ↔ now - p.last_announced < timeout := by
    cases p <;> simp [keepPeer, Peer.last_announced]
  constructor <;> simp [reapSwarm, List.mem_filter, hk]

/-- The stale seeder of the claim C3 counterexample, last announced at
instant 0. -/
def peerC3 : Peer :=
  Peer.V4 { peer_id := "PEER1", last_announced := 0 }

/-- Concrete stores for the claim C3 counterexample: one seeder last
announced at instant 0, torrent record `complete = 1`. -/
def stC3 : Stores :=
  { peerRecords := [("IH", { seeders := [peerC3], leechers := [] })]
    torrents := fun _ => { complete := 1, incomplete := 0, downloaded := 0 } }

/-- Counterexample to claim C3 as stated: at `now = 100` with
`peer_timeout = 50` the tick reaps the one seeder
(`seeds_reaped = 1`), yet the torrent store's `complete` stays 1 —
the claimed decrement by the number removed does not happen. -/
theorem reaper_no_counter_adjustment :
    reapCounts 100 50 stC3 = (1, 0) ∧
    ((reap_peers 100 50 stC3).torrents "IH").complete = 1 ∧
    ((reap_peers 100 50 stC3).peerRecords.map
        (fun e => (e.2.seeders.length, e.2.leechers.length))) = [(0, 0)] := by
  refine ⟨by decide, by decide, by decide⟩

/-- Claim C10: a reaper tick deletes no info-hash entry from the peer
store — the keys after the tick are exactly the snapshotted keys, in
place (so a swarm emptied by the tick stays present as an empty
swarm). -/
theorem reaper_preserves_entries (now timeout : Nat) (st : Stores) :
    (reap_peers now timeout st).peerRecords.map Prod.fst
        = st.peerRecords.map Prod.fst := by
  have h : ∀ l : List (String × SwarmR),
      (l.map (fun e => (e.1, reapSwarm now timeout e.2))).map Prod.fst
        = l.map Prod.fst := by
    intro l
    induction l with
    | nil => rfl
    | cons a t ih => simp [ih]
  exact h st.peerRecords

/-- Claim C5 (amended): an `event` value outside
`started` / `stopped` / `completed` / empty does not fail the parse:
`string_to_event` maps it to `Event::None` and `AnnounceRequest::new`
returns a successfully parsed request carrying `Event::None`. -/
theorem unknown_event_parses_as_none (s : String)
    (h1 : s ≠ "started") (h2 : s ≠ "stopped") (h3 : s ≠ "completed") (h4 : s ≠ "") :
    string_to_event s = Event.None ∧
    AnnounceRequest.new [("event", s)] = Except.ok
      { info_hash := "", peer := "", port := 0, uploaded := 0, downloaded := 0,
        left := 0, compact := false, no_peer_id := false, event := Event.None } := by
  have he : string_to_event s = Event.None := by
    unfold string_to_event
    rw [if_neg h1, if_neg h2, if_neg h3, if_neg h4]
  refine ⟨he, ?_⟩
  have h0 : AnnounceRequest.new [("event", s)]
      = Except.ok { initAnnounceRequest with event := string_to_event s } := rfl
  rw [h0, he]
  rfl

/-- Witness for claim C5 at the repository test's own input
`event=garbage`. -/
theorem unknown_event_parses_as_none_witness :
    string_to_event "garbage" = Event.None ∧
    AnnounceRequest.new [("event", "garbage")] = Except.ok
      { info_hash := "", peer := "", port := 0, uploaded := 0, downloaded := 0,
        left := 0, compact := false, no_peer_id := false, event := Event.None } :=
  unknown_event_parses_as_none "garbage" (by decide) (by decide) (by decide) (by decide)

/-- Counterexample to claim C5 as stated: `event=garbage` yields a
successfully parsed request, not a parse failure. -/
theorem unknown_event_not_failure :
    AnnounceRequest.new [("event", "garbage")] = Except.ok
      { info_hash := "", peer := "", port := 0, uploaded := 0, downloaded := 0,
        left := 0, compact := false, no_peer_id := false, event := Event.None } := rfl

/-- Claim C6 (amended): `port=0` is accepted by `AnnounceRequest::new`
— `0` parses as a valid `u16` and no zero-port check exists — so the
parse succeeds with `port = 0`. -/
theorem port_zero_accepted (ih pid : String) :
    AnnounceRequest.new
        [("info_hash", ih), ("peer", pid), ("port", "0"), ("uploaded", "10"),
          ("downloaded", "20"), ("left", "30")]
      = Except.ok
        { info_hash := ih, peer := pid, port := 0, uploaded := 10, downloaded := 20,
          left := 30, compact := false, no_peer_id := false, event := Event.None } := rfl

/-- Counterexample to claim C6 as stated: a query with `port=0` parses
successfully rather than returning a parse failure. -/
theorem port_zero_not_failure :
    AnnounceRequest.new [("port", "0")] = Except.ok
      { info_hash := "", peer := "", port := 0, uploaded := 0, downloaded := 0,
        left := 0, compact := false, no_peer_id := false, event := Event.None } := rfl

/-- Claim C7: the query `bad_stuff=123` carries none of the required
announce keys, so the validating parser rejects it and the announce
handler answers with exactly
`d14:failure_reason26:Malformed announce requeste`. -/
theorem malformed_announce_body :
    Network.announceRequestNew [("bad_stuff", "123")]
        = Except.error "Malformed announce request" ∧
    Network.announceHandlerBody [("bad_stuff", "123")]
        = some "d14:failure_reason26:Malformed announce requeste" := by
  constructor
  · rfl
  · decide

/-- Claim C8 (amended): scrape parsing succeeds exactly when every
query key is `info_hash` — including the vacuous case of a query with
no pairs, which yields the empty list — returning the `info_hash`
values in query order; any other key yields the failure
"Malformed scrape request". -/
theorem scrape_parse_characterization (pairs : List (String × String)) :
    ScrapeRequest.new pairs
      = if pairs.all (fun kv => kv.1 == "info_hash")
        then Except.ok (pairs.map Prod.snd)
        else Except.error "Malformed scrape request" := by
  have h : ∀ (ps : List (String × String)) (acc : List String),
      scrapeLoop acc ps
        = if ps.all (fun kv => kv.1 == "info_hash")
          then Except.ok (acc ++ ps.map Prod.snd)
          else Except.error "Malformed scrape request" := by
    intro ps
    induction ps with
    | nil => intro acc; simp [scrapeLoop]
    | cons kv rest ih =>
      intro acc
      obtain ⟨k, v⟩ := kv
      by_cases hk : k = "info_hash"
      · subst hk
        show scrapeLoop (acc ++ [v]) rest = _
        rw [ih]
        simp only [List.all_cons, beq_self_eq_true, Bool.true_and, List.map_cons,
          List.append_assoc, List.singleton_append]
      · simp [scrapeLoop, hk, List.all_cons]
  simpa [ScrapeRequest.new] using h pairs []

/-- Counterexample to claim C8 as stated: a query with zero pairs has
no `info_hash` occurrence at all, yet parsing succeeds (with the
empty hash list) instead of failing. -/
theorem scrape_empty_query_ok :
    ScrapeRequest.new ([] : List (String × String)) = Except.ok [] := rfl

/-- Claim C9 (amended): `uploaded`, `downloaded` and `left` are `u32`
fields — for every decimal numeral of a value below `2 ^ 32` the parse
succeeds and carries exactly that value (numerals of larger uint64
values are rejected by the `u32` parse). -/
theorem counters_carried_exactly (su sd sl : String) (u d l : Nat)
    (h1 : parseUInt 32 su = some u) (h2 : parseUInt 32 sd = some d)
    (h3 : parseUInt 32 sl = some l) :
    AnnounceRequest.new [("uploaded", su), ("downloaded", sd), ("left", sl)]
      = Except.ok
        { info_hash := "", peer := "", port := 0, uploaded := u, downloaded := d,
          left := l, compact := false, no_peer_id := false, event := Event.None } := by
  show announceLoop [("uploaded", su), ("downloaded", sd), ("left", sl)] initAnnounceRequest = _
  rw [announceLoop]
  simp only [h1]
  rw [announceLoop]
  simp only [h2]
  rw [announceLoop]
  simp only [h3]
  rfl

/-- Witness for claim C9 at the largest `u32` value and two small
ones. -/
theorem counters_carried_exactly_witness :
    parseUInt 32 "4294967295" = some 4294967295 ∧
    AnnounceRequest.new [("uploaded", "4294967295"), ("downloaded", "0"), ("left", "123")]
      = Except.ok
        { info_hash := "", peer := "", port := 0, uploaded := 4294967295, downloaded := 0,
          left := 123, compact := false, no_peer_id := false, event := Event.None } :=
  ⟨by decide,
    counters_carried_exactly "4294967295" "0" "123" 4294967295 0 123
      (by decide) (by decide) (by decide)⟩

/-- Counterexample to claim C9 as stated: the uint64 value `2 ^ 32`
(4294967296) is rejected — the field is `u32` in the code, so the
parse fails instead of carrying the value. -/
theorem uploaded_u64_rejected :
    AnnounceRequest.new [("uploaded", "4294967296")]
      = Except.error "Unable to parse uploaded quantity" := rfl

end Tyto
